import Mathlib

/-!
Shallow embedding of the `napari-hierarchical` data model
(`src/napari_hierarchical/model.py`) and of the reader dispatch function
(`src/napari_bioimage/_reader.py`).

A napari `Layer` is modelled by its two fields the model reads and writes:
`name` and `visible`.  An `Array` is a leaf node with an optional layer
binding; a `Group` is a tree node owning a list of child arrays and a list
of child groups.  Python object mutation is modelled functionally: an
operation that mutates layers reached through the tree becomes a function
returning the updated tree, and event emission becomes an explicit trace of
emissions.
-/

namespace NapariHierarchical

/-- The two fields of a napari layer that the model observes and mutates. -/
structure Layer where
  name : String
  visible : Bool
  deriving DecidableEq, Repr

/-- The `Array` model node: a named leaf, optionally bound to a layer, with a
separately tracked `loaded_layer` and auxiliary grouping metadata
(a name-keyed string mapping, modelled as an association list). -/
structure Array where
  name : String
  layer : Option Layer := none
  loaded_layer : Option Layer := none
  array_grouping_groups : List (String × String) := []
  deriving DecidableEq, Repr

/-- The property `Array.loaded`: the layer binding is present. -/
def Array.loaded (a : Array) : Bool :=
  a.layer.isSome

/-- The property `Array.visible`: a layer is bound and its visibility flag is
set. -/
def Array.visible (a : Array) : Bool :=
  match a.layer with
  | some l => l.visible
  | none => false

/-- The `Group` model node: a named tree node owning an ordered list of child
arrays and an ordered list of child groups. -/
inductive Group where
  | mk (name : String) (arrays : List Array) (children : List Group)

/-- Accessor for the `name` field of a group. -/
def Group.name : Group → String
  | .mk n _ _ => n

/-- Accessor for the `arrays` collection of a group. -/
def Group.arrays : Group → List Array
  | .mk _ arrays _ => arrays

/-- Accessor for the `children` collection of a group. -/
def Group.children : Group → List Group
  | .mk _ _ children => children

mutual

/-- `Group.iter_arrays(recursive)`: yields the group's own arrays, then, when
`recursive` is true, each child's arrays recursively (in child order). -/
def Group.iter_arrays : Group → Bool → List Array
  | .mk _ arrays children, recursive =>
      arrays ++ (if recursive then iterArraysOfList children recursive else [])

/-- The `for child in self.children: yield from child.iter_arrays(...)` loop. -/
def iterArraysOfList : List Group → Bool → List Array
  | [], _ => []
  | c :: cs, recursive =>
      Group.iter_arrays c recursive ++ iterArraysOfList cs recursive

end

mutual

/-- `Group.iter_children(recursive)`: yields the group's direct children, then,
when `recursive` is true, each child's recursive children sequence. -/
def Group.iter_children : Group → Bool → List Group
  | .mk _ _ children, recursive =>
      children ++ (if recursive then iterChildrenOfList children recursive else [])

/-- The `for child in self.children: yield from child.iter_children(...)` loop. -/
def iterChildrenOfList : List Group → Bool → List Group
  | [], _ => []
  | c :: cs, recursive =>
      Group.iter_children c recursive ++ iterChildrenOfList cs recursive

end

/-- The derived tri-state `Group.loaded` property: counts all recursive
descendant arrays (`n`) and the loaded ones (`n_loaded`); returns `False` when
`n_loaded == 0`, `True` when `n_loaded == n`, `None` (indeterminate) otherwise.
`Option Bool` models Python's `Optional[bool]` with `none` = indeterminate. -/
def Group.loaded (g : Group) : Option Bool :=
  let n := (g.iter_arrays true).length
  let n_loaded := (g.iter_arrays true).countP (fun a => a.loaded)
  if n_loaded = 0 then some false
  else if n_loaded = n then some true
  else none

/-- The derived tri-state `Group.visible` property: counts loaded
(`n_loaded`) and visible (`n_visible`) recursive descendant arrays; returns
`False` when `n_visible == 0`, `True` when `n_visible == n_loaded`, `None`
(indeterminate) otherwise. -/
def Group.visible (g : Group) : Option Bool :=
  let n_loaded := (g.iter_arrays true).countP (fun a => a.loaded)
  let n_visible := (g.iter_arrays true).countP (fun a => a.visible)
  if n_visible = 0 then some false
  else if n_visible = n_loaded then some true
  else none

/-- `Array.from_array`: constructs a new array passing the original's `name`,
`layer` and `loaded_layer` to the constructor, then copies the grouping
metadata entries (`new_array.array_grouping_groups.update(...)`). -/
def Array.from_array (a : Array) : Array :=
  { name := a.name, layer := a.layer, loaded_layer := a.loaded_layer,
    array_grouping_groups := a.array_grouping_groups }

mutual

/-- `Group.from_group`: constructs a new group with the original's name, then
extends its arrays with `Array.from_array` of each array and its children with
`Group.from_group` of each child. -/
def Group.from_group : Group → Group
  | .mk n arrays children =>
      .mk n (arrays.map Array.from_array) (fromGroupOfList children)

/-- The `Group.from_group(child) for child in group.children` generator. -/
def fromGroupOfList : List Group → List Group
  | [] => []
  | c :: cs => Group.from_group c :: fromGroupOfList cs

end

/-- `Array.show()`: asserts that a layer is bound (`none` models the failed
assertion) and sets the bound layer's visibility flag to `True`. -/
def Array.show' (a : Array) : Option Array :=
  match a.layer with
  | some l => some { a with layer := some { l with visible := true } }
  | none => none

/-- `Array.hide()`: asserts that a layer is bound (`none` models the failed
assertion) and sets the bound layer's visibility flag to `False`. -/
def Array.hide' (a : Array) : Option Array :=
  match a.layer with
  | some l => some { a with layer := some { l with visible := false } }
  | none => none

/-- The per-array effect of the `Group.show` loop body: `if array.loaded:
array.show()`; an unloaded array is left untouched.  When the array is loaded
`Array.show'` always succeeds, so `getD a` is never the fallback. -/
def Array.show_if_loaded (a : Array) : Array :=
  if a.loaded then (a.show').getD a else a

/-- The per-array effect of the `Group.hide` loop body: `if array.loaded:
array.hide()`. -/
def Array.hide_if_loaded (a : Array) : Array :=
  if a.loaded then (a.hide').getD a else a

mutual

/-- `Group.show()`: mutates, through the tree, every recursive descendant
array as the loop `for array in self.iter_arrays(recursive=True): if
array.loaded: array.show()` does.  Each array owns its layer state in the
functional model, so the iteration's aggregate effect is this structural
update. -/
def Group.show' : Group → Group
  | .mk n arrays children =>
      .mk n (arrays.map Array.show_if_loaded) (showOfList children)

/-- The effect of `Group.show` on a list of child groups. -/
def showOfList : List Group → List Group
  | [] => []
  | c :: cs => Group.show' c :: showOfList cs

end

mutual

/-- `Group.hide()`: the dual of `Group.show'`, setting visibility `False` on
every loaded recursive descendant array's layer. -/
def Group.hide' : Group → Group
  | .mk n arrays children =>
      .mk n (arrays.map Array.hide_if_loaded) (hideOfList children)

/-- The effect of `Group.hide` on a list of child groups. -/
def hideOfList : List Group → List Group
  | [] => []
  | c :: cs => Group.hide' c :: hideOfList cs

end

mutual

/-- Modelled from the spec's words, for comparison with `Group.iter_arrays`:
the depth-first, arrays-before-children sequence of all recursive descendant
arrays. -/
def Group.dfs_descendant_arrays : Group → List Array
  | .mk _ arrays children => arrays ++ dfsArraysOfList children

/-- Depth-first descendant arrays of a forest, in order. -/
def dfsArraysOfList : List Group → List Array
  | [] => []
  | c :: cs => Group.dfs_descendant_arrays c ++ dfsArraysOfList cs

end

mutual

/-- Modelled from the spec's words, for comparison with `Group.iter_children`:
the depth-first (preorder) sequence of all recursive descendant groups, each
child immediately followed by its own descendants. -/
def Group.dfs_descendant_groups : Group → List Group
  | .mk _ _ children => dfsGroupsOfList children

/-- Depth-first descendant groups of a forest, in preorder. -/
def dfsGroupsOfList : List Group → List Group
  | [] => []
  | c :: cs => c :: (Group.dfs_descendant_groups c ++ dfsGroupsOfList cs)

end

/-! Event bubbling (`Array._emit_loaded_event` / `_on_loaded_event` /
`Group._emit_loaded_event` and the `visible` analogues).  The Python code
walks `parent` pointers; the embedding passes the ancestor chain (the array's
immediate parent first, the root last) explicitly as a list.  An `ArrayEvent`
is the event object fired on the array's own emitter; its `source_tag`
identifies the originating `source_event` it wraps. -/

/-- The event fired on an array's `loaded`/`visible` emitter: carries
`value` (the array's current state) and wraps the originating source event. -/
structure ArrayEvent where
  value : Bool
  source_tag : Nat
  deriving DecidableEq, Repr

/-- One notification emitted on a group's `loaded`/`visible` emitter:
carries the emitting group, `value` (the group's current tri-state) and the
`source_array_event` reference. -/
structure GroupEmission where
  emitter : Group
  value : Option Bool
  source_array_event : ArrayEvent

/-- `Group._emit_loaded_event(source_array_event)` along an ancestor chain:
the group fires its own `loaded` event with its current tri-state value and
the unchanged `source_array_event`, then recurses into its parent. -/
def Group.emit_loaded_event : List Group → ArrayEvent → List GroupEmission
  | [], _ => []
  | g :: ancestors, e =>
      { emitter := g, value := g.loaded, source_array_event := e }
        :: Group.emit_loaded_event ancestors e

/-- `Group._emit_visible_event(source_array_event)` along an ancestor chain. -/
def Group.emit_visible_event : List Group → ArrayEvent → List GroupEmission
  | [], _ => []
  | g :: ancestors, e =>
      { emitter := g, value := g.visible, source_array_event := e }
        :: Group.emit_visible_event ancestors e

/-- `Array._emit_loaded_event(source_event)` followed by the connected
`Array._on_loaded_event` handler: the array fires its `loaded` event `e`
(value = `self.loaded`, wrapping the source event), and the handler forwards
`e` to `parent._emit_loaded_event`, which bubbles along the ancestor chain.
Returns the array event together with the trace of group emissions. -/
def Array.fire_loaded_event (a : Array) (ancestors : List Group) (src : Nat) :
    ArrayEvent × List GroupEmission :=
  let e : ArrayEvent := { value := a.loaded, source_tag := src }
  (e, Group.emit_loaded_event ancestors e)

/-- `Array._emit_visible_event(source_event)` followed by
`Array._on_visible_event`, bubbling along the ancestor chain. -/
def Array.fire_visible_event (a : Array) (ancestors : List Group) (src : Nat) :
    ArrayEvent × List GroupEmission :=
  let e : ArrayEvent := { value := a.visible, source_tag := src }
  (e, Group.emit_visible_event ancestors e)

/-- The chain of ancestors of the subgroup reached from `g` by the child-index
path `p`, listed deepest group first and `g` (the root) last; `none` when the
path leaves the tree.  An array stored in the group at path `p` has exactly
these groups as its ancestors, its immediate parent first. -/
def Group.ancestor_chain : Group → List Nat → Option (List Group)
  | g, [] => some [g]
  | g, i :: p =>
      match (Group.children g).get? i with
      | some c => (Group.ancestor_chain c p).map (fun l => l ++ [g])
      | none => none

/-! Layer observation (`Array.__setattr__` for the `layer` field and the
`_on_layer_name_event` / `_on_layer_visible_event` / `_on_name_event`
handlers).  Layers are shared mutable objects, so here they live in an
indexed store; the single modelled array records which layer index it is
bound to and, separately, the per-emitter subscription lists its handlers
are connected to (`name_subs` / `visible_subs`).  napari emitters fire a
change event only when the written value differs from the current one; the
guards below model that. -/

/-- An event emitted on the modelled array itself. -/
inductive AEvt where
  | name_changed (value : String)
  | visible_changed (value : Bool)
  deriving DecidableEq, Repr

/-- A world with a store of layers and one observed array: the array's
`name`, its bound layer index, and the layer indices whose `name` /
`visible` emitters the array's handlers are connected to. -/
structure ObsWorld where
  layers : List Layer
  array_name : String
  array_layer : Option Nat
  name_subs : List Nat
  visible_subs : List Nat
  deriving DecidableEq, Repr

/-- The name of the array's currently bound layer, when one is bound. -/
def ObsWorld.layer_name_of (w : ObsWorld) : Option String :=
  match w.array_layer with
  | some j => (w.layers.get? j).map Layer.name
  | none => none

/-- `Array.loaded` in the world model. -/
def ObsWorld.array_loaded (w : ObsWorld) : Bool :=
  w.array_layer.isSome

/-- `Array.visible` in the world model. -/
def ObsWorld.array_visible (w : ObsWorld) : Bool :=
  match w.array_layer with
  | some j =>
      match w.layers.get? j with
      | some l => l.visible
      | none => false
  | none => false

/-- `Array.__setattr__("layer", new)`: disconnect the `_on_layer_name_event`
and `_on_layer_visible_event` handlers from the old layer's emitters when one
is bound, replace the binding, reconnect to the new layer when one is given;
then, when the binding actually changed, the connected `_on_layer_event`
handler syncs `self.name = self.layer.name` (its `loaded`/`visible`
emissions bubble upward and are modelled by `fire_loaded_event` /
`fire_visible_event`). -/
def ObsWorld.set_layer (w : ObsWorld) (new : Option Nat) : ObsWorld :=
  let w1 :=
    match w.array_layer with
    | some old =>
        { w with name_subs := w.name_subs.erase old,
                 visible_subs := w.visible_subs.erase old }
    | none => w
  let w2 := { w1 with array_layer := new }
  let w3 :=
    match new with
    | some j =>
        { w2 with name_subs := j :: w2.name_subs,
                  visible_subs := j :: w2.visible_subs }
    | none => w2
  if new = w.array_layer then w3
  else
    match w3.layer_name_of with
    | some nm => { w3 with array_name := nm }
    | none => w3

/-- Mutating `layers[i].visible := b` as the host viewer does: the layer's
`visible` emitter fires when the value changed; when the array's
`_on_layer_visible_event` handler is connected to it, the handler asserts a
bound layer (`none` models the failed assertion) and re-emits the array's
`visible` event. -/
def ObsWorld.set_layer_visible (w : ObsWorld) (i : Nat) (b : Bool) :
    Option (ObsWorld × List AEvt) :=
  match w.layers.get? i with
  | none => some (w, [])
  | some l =>
      if l.visible = b then some (w, [])
      else
        let w1 := { w with layers := w.layers.set i { l with visible := b } }
        if i ∈ w1.visible_subs then
          match w1.array_layer with
          | some _ => some (w1, [AEvt.visible_changed w1.array_visible])
          | none => none
        else some (w1, [])

/-- Mutating `layers[i].name := x` as the host viewer does: the layer's
`name` emitter fires when the value changed; when the array's
`_on_layer_name_event` handler is connected, it asserts a bound layer
(`none` models the failed assertion) and sets `self.name = self.layer.name`,
whose own `name` event triggers `_on_name_event` writing the name back to
the bound layer; the further `_on_layer_name_event` round reads back the
value just written and is stopped by the change guard. -/
def ObsWorld.set_layer_name (w : ObsWorld) (i : Nat) (x : String) :
    Option (ObsWorld × List AEvt) :=
  match w.layers.get? i with
  | none => some (w, [])
  | some l =>
      if l.name = x then some (w, [])
      else
        let w1 := { w with layers := w.layers.set i { l with name := x } }
        if i ∈ w1.name_subs then
          match w1.array_layer, w1.layer_name_of with
          | some j, some cur =>
              if w1.array_name = cur then some (w1, [])
              else
                let w2 := { w1 with array_name := cur }
                let w3 :=
                  match w2.layers.get? j with
                  | some lj =>
                      if lj.name = cur then w2
                      else { w2 with layers := w2.layers.set j { lj with name := cur } }
                  | none => w2
                some (w3, [AEvt.name_changed cur])
          | _, _ => none
        else some (w1, [])

/-- Setting the array's own `name` field (`Array.name = x`): the evented
model fires the `name` event when the value changed, and the connected
`_on_name_event` handler writes the name through to the bound layer when one
is present; the layer's `name` event then triggers `_on_layer_name_event`,
which reads back the value just written and is stopped by the change
guard. -/
def ObsWorld.set_array_name (w : ObsWorld) (x : String) : ObsWorld × List AEvt :=
  if w.array_name = x then (w, [])
  else
    let w1 := { w with array_name := x }
    let w2 :=
      match w1.array_layer with
      | some j =>
          match w1.layers.get? j with
          | some lj =>
              if lj.name = x then w1
              else { w1 with layers := w1.layers.set j { lj with name := x } }
          | none => w1
      | none => w1
    (w2, [AEvt.name_changed x])

/-- The bookkeeping invariant `Array.__setattr__` maintains: the array's
handlers are connected exactly to the bound layer's emitters. -/
def ObsWorld.subs_invariant (w : ObsWorld) : Prop :=
  w.name_subs = w.array_layer.toList ∧ w.visible_subs = w.array_layer.toList

/-- Concrete fixture: a world whose array is bound and subscribed to layer 0
of a two-layer store. -/
def c7World : ObsWorld :=
  { layers := [{ name := "a", visible := true }, { name := "b", visible := false }],
    array_name := "a", array_layer := some 0, name_subs := [0],
    visible_subs := [0] }

/-- Concrete fixture: a loaded, visible array. -/
def c3Array : Array :=
  { name := "a", layer := some { name := "img", visible := true } }

/-- Concrete fixture: the group holding `c3Array`. -/
def c3Parent : Group := Group.mk "p" [c3Array] []

/-- Concrete fixture: a root group with `c3Parent` as its only child, so
`c3Array` sits at depth 2. -/
def c3Root : Group := Group.mk "r" [] [c3Parent]

/-- Concrete fixture: the ancestor chain of `c3Array` inside `c3Root`,
immediate parent first. -/
def c3Chain : List Group := [c3Parent, c3Root]

end NapariHierarchical

namespace NapariBioimage

/-- The argument to `napari_get_reader`: napari passes either a single path or
a list of paths. -/
inductive PathArg where
  | single (p : String)
  | listOf (ps : List String)

/-- The possible non-`None` result of `napari_get_reader`: the module-level
`_reader_function`. -/
inductive ReaderResult where
  | readerFunction
  deriving DecidableEq

/-- `napari_get_reader(path)`: when `path` is a list, returns `None` unless it
has exactly one element, otherwise replaces `path` by its sole element; then
returns `_reader_function` when `controller.can_read_image(path)` holds and
`None` otherwise.  The controller is abstracted by the predicate
`can_read_image`. -/
def napari_get_reader (can_read_image : String → Bool) (path : PathArg) :
    Option ReaderResult :=
  let scalar : Option String :=
    match path with
    | .listOf ps => if ps.length ≠ 1 then none else ps.head?
    | .single p => some p
  match scalar with
  | none => none
  | some p => if can_read_image p then some .readerFunction else none

end NapariBioimage

/-! ## Theorems -/

namespace NapariHierarchical

/-- Every array survives `from_array` unchanged: the constructor receives the
original's `name`, `layer` and `loaded_layer`, and the grouping metadata is
copied over. -/
theorem Array.from_array_eq (a : Array) : Array.from_array a = a := rfl

mutual

/-- `from_group` rebuilds the tree value-identically: same names, same
structure, and each array keeps its `layer` and `loaded_layer` bindings. -/
theorem Group.from_group_id : ∀ g : Group, Group.from_group g = g
  | .mk n arrays children => by
      show Group.mk n (arrays.map Array.from_array) (fromGroupOfList children) =
        Group.mk n arrays children
      rw [fromGroupOfList_id children, show Array.from_array = id from rfl,
        List.map_id]

/-- List version of `Group.from_group_id`. -/
theorem fromGroupOfList_id : ∀ l : List Group, fromGroupOfList l = l
  | [] => rfl
  | c :: cs => by
      rw [show fromGroupOfList (c :: cs) = Group.from_group c :: fromGroupOfList cs
            from rfl,
        Group.from_group_id c, fromGroupOfList_id cs]

end

/-- C1, counterexample: the clone produced by `Array.from_array` (and hence
by `Group.from_group`) keeps the original's layer binding instead of having
`layer is None`: for a concrete array bound to a layer, the clone's layer is
not `none`. -/
theorem claim_C1_counterexample :
    (Array.from_array
        { name := "a", layer := some { name := "img", visible := true } }).layer ≠
        none ∧
      (Group.from_group
            (Group.mk "g"
              [{ name := "a", layer := some { name := "img", visible := true } }]
              [])).arrays.map
          Array.layer =
        [some { name := "img", visible := true }] := by
  exact ⟨by decide, by decide⟩

/-- C1, amended: `Group.from_group` (resp. `Array.from_array`) returns a
clone with the same name and the same recursive child-group/array structure
as the original, in which every array keeps the original's `layer` and
`loaded_layer` bindings (they are not cleared): as pure data the clone equals
the original. -/
theorem claim_C1_amended_clone_preserves_data :
    ∀ (g : Group) (a : Array), Group.from_group g = g ∧ Array.from_array a = a :=
  fun g a => ⟨Group.from_group_id g, Array.from_array_eq a⟩

/-- C2: the derived `loaded` property is `False` when zero of the recursive
descendant arrays are loaded, `True` when a non-zero count equals the total
count (all loaded), and indeterminate (`none`) when a strict non-empty subset
is loaded; `visible` obeys the same three-way law with the visible count
measured against the loaded count. -/
theorem claim_C2_tristate_aggregation (g : Group) :
    ((g.iter_arrays true).countP (fun a => a.loaded) = 0 → g.loaded = some false) ∧
      (0 < (g.iter_arrays true).countP (fun a => a.loaded) →
        (g.iter_arrays true).countP (fun a => a.loaded) = (g.iter_arrays true).length →
        g.loaded = some true) ∧
      (0 < (g.iter_arrays true).countP (fun a => a.loaded) →
        (g.iter_arrays true).countP (fun a => a.loaded) < (g.iter_arrays true).length →
        g.loaded = none) ∧
      ((g.iter_arrays true).countP (fun a => a.visible) = 0 → g.visible = some false) ∧
      (0 < (g.iter_arrays true).countP (fun a => a.visible) →
        (g.iter_arrays true).countP (fun a => a.visible) =
          (g.iter_arrays true).countP (fun a => a.loaded) →
        g.visible = some true) ∧
      (0 < (g.iter_arrays true).countP (fun a => a.visible) →
        (g.iter_arrays true).countP (fun a => a.visible) <
          (g.iter_arrays true).countP (fun a => a.loaded) →
        g.visible = none) := by
  refine ⟨fun h0 => ?_, fun hpos he => ?_, fun hpos hlt => ?_,
    fun h0 => ?_, fun hpos he => ?_, fun hpos hlt => ?_⟩
  · simp only [Group.loaded]
    rw [if_pos h0]
  · simp only [Group.loaded]
    rw [if_neg (by omega), if_pos he]
  · simp only [Group.loaded]
    rw [if_neg (by omega), if_neg (by omega)]
  · simp only [Group.visible]
    rw [if_pos h0]
  · simp only [Group.visible]
    rw [if_neg (by omega), if_pos he]
  · simp only [Group.visible]
    rw [if_neg (by omega), if_neg (by omega)]

/-- C2, witness: the three-way law evaluated on concrete groups — an empty
group (no loaded arrays), a group whose only array is loaded and visible, a
group with one loaded and one unloaded array, and a group with one visible
and one invisible loaded array. -/
theorem claim_C2_tristate_aggregation_witness :
    (Group.mk "g0" [] []).loaded = some false ∧
      (Group.mk "g1" [{ name := "a", layer := some { name := "a", visible := true } }]
          []).loaded = some true ∧
      (Group.mk "g2"
          [{ name := "a", layer := some { name := "a", visible := true } },
            { name := "b" }]
          []).loaded = none ∧
      (Group.mk "g0" [] []).visible = some false ∧
      (Group.mk "g1" [{ name := "a", layer := some { name := "a", visible := true } }]
          []).visible = some true ∧
      (Group.mk "g3"
          [{ name := "a", layer := some { name := "a", visible := true } },
            { name := "b", layer := some { name := "b", visible := false } }]
          []).visible = none := by
  refine ⟨(claim_C2_tristate_aggregation _).1 (by decide),
    (claim_C2_tristate_aggregation _).2.1 (by decide) (by decide),
    (claim_C2_tristate_aggregation _).2.2.1 (by decide) (by decide),
    (claim_C2_tristate_aggregation _).2.2.2.1 (by decide),
    (claim_C2_tristate_aggregation _).2.2.2.2.1 (by decide) (by decide),
    (claim_C2_tristate_aggregation _).2.2.2.2.2 (by decide) (by decide)⟩

/-- C9: a group with no recursive descendant arrays has `loaded = False` and
`visible = False` — the `n_loaded == 0` (resp. `n_visible == 0`) branch is
tested first and wins over the vacuous `n_loaded == n` branch. -/
theorem claim_C9_empty_group_false (g : Group) (h : g.iter_arrays true = []) :
    g.loaded = some false ∧ g.visible = some false := by
  constructor
  · simp only [Group.loaded, h]
    rfl
  · simp only [Group.visible, h]
    rfl

/-- C9, witness: a freshly constructed group and a group containing only
array-less child groups. -/
theorem claim_C9_empty_group_false_witness :
    (Group.mk "root" [] []).loaded = some false ∧
      (Group.mk "root" [] []).visible = some false ∧
      (Group.mk "root" [] [Group.mk "child" [] []]).loaded = some false ∧
      (Group.mk "root" [] [Group.mk "child" [] []]).visible = some false := by
  refine ⟨(claim_C9_empty_group_false _ (by decide)).1,
    (claim_C9_empty_group_false _ (by decide)).2,
    (claim_C9_empty_group_false (Group.mk "root" [] [Group.mk "child" [] []])
        (by decide)).1,
    (claim_C9_empty_group_false (Group.mk "root" [] [Group.mk "child" [] []])
        (by decide)).2⟩

mutual

/-- `iter_arrays(recursive=True)` yields exactly the depth-first,
arrays-before-children descendant array sequence. -/
theorem Group.iter_arrays_true_eq_dfs :
    ∀ g : Group, Group.iter_arrays g true = Group.dfs_descendant_arrays g
  | .mk n arrays children => by
      show arrays ++ iterArraysOfList children true = arrays ++ dfsArraysOfList children
      rw [iterArraysOfList_eq_dfs children]

/-- Forest version of `Group.iter_arrays_true_eq_dfs`. -/
theorem iterArraysOfList_eq_dfs :
    ∀ l : List Group, iterArraysOfList l true = dfsArraysOfList l
  | [] => rfl
  | c :: cs => by
      show Group.iter_arrays c true ++ iterArraysOfList cs true =
        Group.dfs_descendant_arrays c ++ dfsArraysOfList cs
      rw [Group.iter_arrays_true_eq_dfs c, iterArraysOfList_eq_dfs cs]

end

mutual

/-- `iter_children(recursive=True)` yields each recursive descendant group
exactly once: its sequence is a permutation of the depth-first one. -/
theorem Group.iter_children_true_perm :
    ∀ g : Group, (Group.iter_children g true).Perm (Group.dfs_descendant_groups g)
  | .mk _ _ children => by
      show (children ++ iterChildrenOfList children true).Perm (dfsGroupsOfList children)
      exact iterChildrenOfList_perm children

/-- Forest version of `Group.iter_children_true_perm`. -/
theorem iterChildrenOfList_perm :
    ∀ l : List Group, (l ++ iterChildrenOfList l true).Perm (dfsGroupsOfList l)
  | [] => List.Perm.refl []
  | c :: cs => by
      show ((c :: cs) ++ (Group.iter_children c true ++ iterChildrenOfList cs true)).Perm
        (c :: (Group.dfs_descendant_groups c ++ dfsGroupsOfList cs))
      refine List.Perm.cons c ?_
      show (cs ++ (Group.iter_children c true ++ iterChildrenOfList cs true)).Perm
        (Group.dfs_descendant_groups c ++ dfsGroupsOfList cs)
      rw [← List.append_assoc]
      refine List.Perm.trans (List.Perm.append_right _ List.perm_append_comm) ?_
      rw [List.append_assoc]
      exact List.Perm.append (Group.iter_children_true_perm c)
        (iterChildrenOfList_perm cs)

end

/-- C8, counterexample: `iter_children(recursive=True)` is not a depth-first
sequence.  On the tree `g → [c1 → [d1], c2]` it yields `[c1, c2, d1]` (all
direct children first), while the depth-first sequence is `[c1, d1, c2]`. -/
theorem claim_C8_counterexample :
    Group.iter_children
        (Group.mk "g" []
          [Group.mk "c1" [] [Group.mk "d1" [] []], Group.mk "c2" [] []])
        true ≠
      Group.dfs_descendant_groups
        (Group.mk "g" []
          [Group.mk "c1" [] [Group.mk "d1" [] []], Group.mk "c2" [] []]) :=
  fun h => absurd (congrArg (List.map Group.name) h) (by decide)

/-- C8, amended: with `recursive=False`, `iter_arrays` / `iter_children`
yield exactly the direct child arrays / groups in collection order; with
`recursive=True`, `iter_arrays` yields the depth-first arrays-before-children
sequence of all recursive descendant arrays, while `iter_children` yields all
recursive descendant groups each exactly once (a permutation of the
depth-first sequence), direct children first (not in depth-first order).
Laziness and restartability are Python generator mechanics with no
counterpart in the value-level model; the yielded finite sequences are what
is verified. -/
theorem claim_C8_amended_iteration (g : Group) :
    g.iter_arrays false = g.arrays ∧
      g.iter_children false = g.children ∧
      g.iter_arrays true = Group.dfs_descendant_arrays g ∧
      (g.iter_children true).Perm (Group.dfs_descendant_groups g) ∧
      (g.iter_children true).take g.children.length = g.children := by
  refine ⟨?_, ?_, Group.iter_arrays_true_eq_dfs g, Group.iter_children_true_perm g, ?_⟩
  · cases g with
    | mk n arrays children =>
        show arrays ++ [] = arrays
        rw [List.append_nil]
  · cases g with
    | mk n arrays children =>
        show children ++ [] = children
        rw [List.append_nil]
  · cases g with
    | mk n arrays children =>
        show ((children ++ iterChildrenOfList children true).take children.length) =
          children
        rw [List.take_left]

mutual

/-- `Group.show` commutes with recursive array iteration: the shown tree's
array sequence is the original sequence with the per-array effect mapped
over it. -/
theorem Group.show_iter_arrays :
    ∀ g : Group,
      Group.iter_arrays (Group.show' g) true =
        (Group.iter_arrays g true).map Array.show_if_loaded
  | .mk n arrays children => by
      show arrays.map Array.show_if_loaded ++ iterArraysOfList (showOfList children) true =
        (arrays ++ iterArraysOfList children true).map Array.show_if_loaded
      rw [List.map_append, showOfList_iter_arrays children]

/-- Forest version of `Group.show_iter_arrays`. -/
theorem showOfList_iter_arrays :
    ∀ l : List Group,
      iterArraysOfList (showOfList l) true =
        (iterArraysOfList l true).map Array.show_if_loaded
  | [] => rfl
  | c :: cs => by
      show Group.iter_arrays (Group.show' c) true ++ iterArraysOfList (showOfList cs) true =
        (Group.iter_arrays c true ++ iterArraysOfList cs true).map Array.show_if_loaded
      rw [List.map_append, Group.show_iter_arrays c, showOfList_iter_arrays cs]

end

mutual

/-- `Group.hide` commutes with recursive array iteration. -/
theorem Group.hide_iter_arrays :
    ∀ g : Group,
      Group.iter_arrays (Group.hide' g) true =
        (Group.iter_arrays g true).map Array.hide_if_loaded
  | .mk n arrays children => by
      show arrays.map Array.hide_if_loaded ++ iterArraysOfList (hideOfList children) true =
        (arrays ++ iterArraysOfList children true).map Array.hide_if_loaded
      rw [List.map_append, hideOfList_iter_arrays children]

/-- Forest version of `Group.hide_iter_arrays`. -/
theorem hideOfList_iter_arrays :
    ∀ l : List Group,
      iterArraysOfList (hideOfList l) true =
        (iterArraysOfList l true).map Array.hide_if_loaded
  | [] => rfl
  | c :: cs => by
      show Group.iter_arrays (Group.hide' c) true ++ iterArraysOfList (hideOfList cs) true =
        (Group.iter_arrays c true ++ iterArraysOfList cs true).map Array.hide_if_loaded
      rw [List.map_append, Group.hide_iter_arrays c, hideOfList_iter_arrays cs]

end

/-- C4: `Group.show()` applies, along the depth-first arrays-before-children
iteration sequence, the per-array effect that sets a loaded array's layer
visibility flag to `True` and leaves an unloaded array (and everything it
references) unchanged; `Group.hide()` does the same with `False`. -/
theorem claim_C4_group_show_hide (g : Group) :
    (Group.show' g).iter_arrays true = (g.iter_arrays true).map Array.show_if_loaded ∧
      (Group.hide' g).iter_arrays true =
        (g.iter_arrays true).map Array.hide_if_loaded ∧
      g.iter_arrays true = Group.dfs_descendant_arrays g ∧
      ∀ a ∈ g.iter_arrays true,
        (a.loaded = false →
          Array.show_if_loaded a = a ∧ Array.hide_if_loaded a = a) ∧
        (a.loaded = true →
          ∃ l, a.layer = some l ∧
            Array.show_if_loaded a = { a with layer := some { l with visible := true } } ∧
            Array.hide_if_loaded a =
              { a with layer := some { l with visible := false } }) := by
  refine ⟨Group.show_iter_arrays g, Group.hide_iter_arrays g,
    Group.iter_arrays_true_eq_dfs g, fun a _ => ⟨fun hnl => ?_, fun hl => ?_⟩⟩
  · constructor <;> simp [Array.show_if_loaded, Array.hide_if_loaded, hnl]
  · rcases hs : a.layer with _ | l
    · simp [Array.loaded, hs] at hl
    · refine ⟨l, rfl, ?_, ?_⟩ <;>
        simp [Array.show_if_loaded, Array.hide_if_loaded, Array.show', Array.hide',
          hl, hs]

/-- C4, witness: a concrete two-level tree with one loaded-invisible array,
one unloaded array, and one loaded array in a child group; `Group.show`
turns the loaded layers visible and leaves the unloaded array untouched. -/
theorem claim_C4_group_show_hide_witness :
    (Group.show'
          (Group.mk "g"
            [{ name := "a", layer := some { name := "img", visible := false } },
              { name := "b" }]
            [Group.mk "c" [{ name := "d", layer := some { name := "deep", visible := false } }]
                []])).iter_arrays
        true =
      (Group.iter_arrays
            (Group.mk "g"
              [{ name := "a", layer := some { name := "img", visible := false } },
                { name := "b" }]
              [Group.mk "c"
                  [{ name := "d", layer := some { name := "deep", visible := false } }] []])
            true).map
        Array.show_if_loaded ∧
      Array.show_if_loaded { name := "b" } = { name := "b" } ∧
      Array.show_if_loaded { name := "a", layer := some { name := "img", visible := false } } =
        { name := "a", layer := some { name := "img", visible := true } } := by
  refine ⟨(claim_C4_group_show_hide _).1, ?_, ?_⟩
  · exact ((claim_C4_group_show_hide
        (Group.mk "g" [{ name := "b" }] [])).2.2.2 { name := "b" } (by decide)).1
      (by decide) |>.1
  · rcases ((claim_C4_group_show_hide
        (Group.mk "g"
          [{ name := "a", layer := some { name := "img", visible := false } }] [])).2.2.2
        { name := "a", layer := some { name := "img", visible := false } }
        (by decide)).2 (by decide) with ⟨l, hl, hs, _⟩
    have hl' : l = { name := "img", visible := false } := by
      simpa using hl.symm
    rw [hs, hl']

/-- C5: `Array.show()` / `Array.hide()` fail (the `assert self.layer is not
None` assertion, modelled by `none`) exactly when no layer is bound, i.e.
exactly when the array is not loaded; when a layer is bound they succeed and
set that layer's visibility flag to `True` / `False`, leaving everything else
unchanged. -/
theorem claim_C5_show_hide_assert (a : Array) :
    (a.show' = none ↔ a.loaded = false) ∧
      (a.hide' = none ↔ a.loaded = false) ∧
      (a.loaded = true →
        ∃ l, a.layer = some l ∧
          a.show' = some { a with layer := some { l with visible := true } } ∧
          a.hide' = some { a with layer := some { l with visible := false } }) := by
  refine ⟨?_, ?_, fun hl => ?_⟩
  · cases hl : a.layer <;> simp [Array.show', Array.loaded, hl]
  · cases hl : a.layer <;> simp [Array.hide', Array.loaded, hl]
  · rcases hs : a.layer with _ | l
    · simp [Array.loaded, hs] at hl
    · exact ⟨l, rfl, by simp [Array.show', hs], by simp [Array.hide', hs]⟩

/-- C5, witness: evaluated on a concrete unloaded array (assertion fires)
and a concrete loaded array (visibility flag is written). -/
theorem claim_C5_show_hide_assert_witness :
    (({ name := "u" } : Array).show' = none ↔
        ({ name := "u" } : Array).loaded = false) ∧
      ({ name := "a", layer := some { name := "img", visible := false } } : Array).loaded =
        true ∧
      ({ name := "a", layer := some { name := "img", visible := false } } : Array).show' =
        some { name := "a", layer := some { name := "img", visible := true } } := by
  refine ⟨(claim_C5_show_hide_assert _).1, by decide, ?_⟩
  rcases (claim_C5_show_hide_assert
      ({ name := "a", layer := some { name := "img", visible := false } } : Array)).2.2
      (by decide) with ⟨l, hl, hs, _⟩
  have hl' : l = { name := "img", visible := false } := by
    simpa using hl.symm
  rw [hs, hl']

/-- The bubbling recursion unfolded: each group of the chain, in order, emits
one `loaded` notification with its own tri-state value and the unchanged
source array event. -/
theorem Group.emit_loaded_event_eq (chain : List Group) (e : ArrayEvent) :
    Group.emit_loaded_event chain e =
      chain.map fun g =>
        { emitter := g, value := g.loaded, source_array_event := e } := by
  induction chain with
  | nil => rfl
  | cons g gs ih =>
      show ({ emitter := g, value := g.loaded, source_array_event := e } :
          GroupEmission) :: Group.emit_loaded_event gs e = _
      rw [ih, List.map_cons]

/-- The `visible` analogue of `Group.emit_loaded_event_eq`. -/
theorem Group.emit_visible_event_eq (chain : List Group) (e : ArrayEvent) :
    Group.emit_visible_event chain e =
      chain.map fun g =>
        { emitter := g, value := g.visible, source_array_event := e } := by
  induction chain with
  | nil => rfl
  | cons g gs ih =>
      show ({ emitter := g, value := g.visible, source_array_event := e } :
          GroupEmission) :: Group.emit_visible_event gs e = _
      rw [ih, List.map_cons]

/-- An ancestor chain found along a child-index path of length `k` consists
of exactly `k + 1` groups. -/
theorem Group.ancestor_chain_length :
    ∀ (p : List Nat) (g : Group) (chain : List Group),
      Group.ancestor_chain g p = some chain → chain.length = p.length + 1
  | [], g, chain, h => by
      rw [show Group.ancestor_chain g [] = some [g] from rfl] at h
      cases h
      rfl
  | i :: p, g, chain, h => by
      rw [show Group.ancestor_chain g (i :: p) =
            (match (Group.children g).get? i with
              | some c => (Group.ancestor_chain c p).map (fun l => l ++ [g])
              | none => none)
          from rfl] at h
      cases hc : (Group.children g).get? i with
      | none => rw [hc] at h; exact absurd h (by simp)
      | some c =>
          rw [hc] at h
          rw [show (match some c with
                | some c => (Group.ancestor_chain c p).map (fun l => l ++ [g])
                | none => none) =
              (Group.ancestor_chain c p).map (fun l => l ++ [g]) from rfl] at h
          cases hl : Group.ancestor_chain c p with
          | none => rw [hl] at h; exact absurd h (by simp)
          | some l =>
              rw [hl] at h
              simp only [Option.map_some', Option.some.injEq] at h
              subst h
              have := Group.ancestor_chain_length p c l hl
              simp [List.length_append, this]

/-- C3: when a `loaded` or `visible` change event fires on an array whose
ancestor chain (immediate parent first, root last) was found along a
child-index path of length `k` — so the array sits at depth `N = k + 1` — the
array's own event carries the array's current state and wraps the originating
source event, and exactly `N` notifications are emitted, one per ancestor in
chain order, each carrying the ancestor's current tri-state value and a
reference to the array's event. -/
theorem claim_C3_event_bubbling (root : Group) (p : List Nat) (chain : List Group)
    (a : Array) (src : Nat) (h : Group.ancestor_chain root p = some chain)
    (_ha : a ∈ Group.arrays (chain.headD root)) :
    chain.length = p.length + 1 ∧
      (a.fire_loaded_event chain src).1 = { value := a.loaded, source_tag := src } ∧
      (a.fire_loaded_event chain src).2 =
        chain.map (fun g =>
          { emitter := g, value := g.loaded,
            source_array_event := (a.fire_loaded_event chain src).1 }) ∧
      (a.fire_visible_event chain src).1 =
        { value := a.visible, source_tag := src } ∧
      (a.fire_visible_event chain src).2 =
        chain.map (fun g =>
          { emitter := g, value := g.visible,
            source_array_event := (a.fire_visible_event chain src).1 }) :=
  ⟨Group.ancestor_chain_length p root chain h, rfl,
    Group.emit_loaded_event_eq chain _, rfl,
    Group.emit_visible_event_eq chain _⟩

/-- C3, witness: in the concrete tree `r → p → [a]` the array sits at depth
2 and firing its `loaded`/`visible` events emits one notification on `p` then
one on `r`, both carrying the array's event. -/
theorem claim_C3_event_bubbling_witness :
    c3Chain.length = ([0] : List Nat).length + 1 ∧
      (c3Array.fire_loaded_event c3Chain 7).2 =
        c3Chain.map (fun g =>
          { emitter := g, value := g.loaded,
            source_array_event := (c3Array.fire_loaded_event c3Chain 7).1 }) ∧
      (c3Array.fire_visible_event c3Chain 7).2 =
        c3Chain.map (fun g =>
          { emitter := g, value := g.visible,
            source_array_event := (c3Array.fire_visible_event c3Chain 7).1 }) := by
  have h := claim_C3_event_bubbling c3Root [0] c3Chain c3Array 7 (by rfl)
    (List.Mem.head _)
  exact ⟨h.1, h.2.2.1, h.2.2.2.2⟩

/-- C6: for an array bound to layer `i`, with the handlers subscribed as the
constructor and `__setattr__` leave them and the names in sync (the state the
sync itself maintains), writing `x` to the layer's name drives the array's
name to `x`, writing `x` to the array's name drives the layer's name to `x`,
and once the two names agree writing the common value to either side changes
nothing and emits nothing (the fixed point). -/
theorem claim_C6_name_sync (w : ObsWorld) (i : Nat) (l : Layer)
    (hb : w.array_layer = some i) (hl : w.layers.get? i = some l)
    (hinv : w.subs_invariant) (hsync : w.array_name = l.name) :
    (∀ x, ∃ w' evts, w.set_layer_name i x = some (w', evts) ∧
        w'.array_name = x ∧ w'.layer_name_of = some x) ∧
      (∀ x, (w.set_array_name x).1.array_name = x ∧
        (w.set_array_name x).1.layer_name_of = some x) ∧
      w.set_layer_name i l.name = some (w, []) ∧
      w.set_array_name w.array_name = (w, []) := by
  obtain ⟨hlt, _⟩ := List.get?_eq_some.mp hl
  obtain ⟨h1, h2⟩ := hinv
  obtain ⟨L, an, al, ns, vs⟩ := w
  dsimp only at hb hl hsync h1 h2 hlt
  subst hb
  dsimp only [Option.toList] at h1 h2
  subst hsync h1 h2
  refine ⟨fun x => ?_, fun x => ?_, ?_, ?_⟩
  · by_cases hx : l.name = x
    · refine ⟨⟨L, l.name, some i, [i], [i]⟩, [], ?_, hx, ?_⟩
      · show ObsWorld.set_layer_name ⟨L, l.name, some i, [i], [i]⟩ i x = _
        unfold ObsWorld.set_layer_name
        rw [hl]
        dsimp only
        rw [if_pos hx]
      · show ObsWorld.layer_name_of ⟨L, l.name, some i, [i], [i]⟩ = some x
        unfold ObsWorld.layer_name_of
        dsimp only
        rw [hl]
        simp [hx]
    · refine ⟨⟨L.set i { l with name := x }, x, some i, [i], [i]⟩,
        [AEvt.name_changed x], ?_, rfl, ?_⟩
      · show ObsWorld.set_layer_name ⟨L, l.name, some i, [i], [i]⟩ i x = _
        unfold ObsWorld.set_layer_name
        rw [hl]
        dsimp only
        rw [if_neg hx, if_pos (List.mem_singleton.mpr rfl)]
        unfold ObsWorld.layer_name_of
        dsimp only
        rw [List.get?_set_eq_of_lt _ hlt]
        dsimp only [Option.map_some']
        rw [if_neg hx]
        rw [List.get?_set_eq_of_lt _ hlt]
        dsimp only
        rw [if_pos rfl]
      · show ObsWorld.layer_name_of
            ⟨L.set i { l with name := x }, x, some i, [i], [i]⟩ = some x
        unfold ObsWorld.layer_name_of
        dsimp only
        rw [List.get?_set_eq_of_lt _ hlt]
        rfl
  · by_cases hx : l.name = x
    · have e : ObsWorld.set_array_name ⟨L, l.name, some i, [i], [i]⟩ x =
          (⟨L, l.name, some i, [i], [i]⟩, []) := by
        unfold ObsWorld.set_array_name
        dsimp only
        rw [if_pos hx]
      rw [e]
      refine ⟨hx, ?_⟩
      unfold ObsWorld.layer_name_of
      dsimp only
      rw [hl]
      simp [hx]
    · have e : ObsWorld.set_array_name ⟨L, l.name, some i, [i], [i]⟩ x =
          (⟨L.set i { l with name := x }, x, some i, [i], [i]⟩,
            [AEvt.name_changed x]) := by
        unfold ObsWorld.set_array_name
        dsimp only
        rw [if_neg hx]
        rw [hl]
        dsimp only
        rw [if_neg hx]
      rw [e]
      refine ⟨rfl, ?_⟩
      unfold ObsWorld.layer_name_of
      dsimp only
      rw [List.get?_set_eq_of_lt _ hlt]
      rfl
  · show ObsWorld.set_layer_name ⟨L, l.name, some i, [i], [i]⟩ i l.name = _
    unfold ObsWorld.set_layer_name
    rw [hl]
    dsimp only
    rw [if_pos rfl]
  · show ObsWorld.set_array_name ⟨L, l.name, some i, [i], [i]⟩ l.name = _
    unfold ObsWorld.set_array_name
    dsimp only
    rw [if_pos rfl]

/-- C6, witness: a concrete in-sync world — renaming the layer renames the
array, renaming the array renames the layer, and re-writing the common name
is a silent no-op. -/
theorem claim_C6_name_sync_witness :
    (∃ w' evts,
        ObsWorld.set_layer_name
            { layers := [{ name := "n", visible := true }], array_name := "n",
              array_layer := some 0, name_subs := [0], visible_subs := [0] }
            0 "m" =
          some (w', evts) ∧ w'.array_name = "m" ∧ w'.layer_name_of = some "m") ∧
      (ObsWorld.set_array_name
            { layers := [{ name := "n", visible := true }], array_name := "n",
              array_layer := some 0, name_subs := [0], visible_subs := [0] }
            "m").1.array_name = "m" ∧
      ObsWorld.set_layer_name
          { layers := [{ name := "n", visible := true }], array_name := "n",
            array_layer := some 0, name_subs := [0], visible_subs := [0] }
          0 "n" =
        some
          ({ layers := [{ name := "n", visible := true }], array_name := "n",
              array_layer := some 0, name_subs := [0], visible_subs := [0] }, []) := by
  have h := claim_C6_name_sync
    { layers := [{ name := "n", visible := true }], array_name := "n",
      array_layer := some 0, name_subs := [0], visible_subs := [0] }
    0 { name := "n", visible := true } rfl rfl ⟨rfl, rfl⟩ rfl
  exact ⟨h.1 "m", (h.2.1 "m").1, h.2.2.1⟩

/-- Rebinding the layer of an array that was bound to `old` (with the
subscriptions the invariant prescribes) leaves the layer store untouched and
results in exactly the new binding's subscriptions. -/
theorem set_layer_shape (L : List Layer) (an : String) (old : Nat)
    (new : Option Nat) :
    (ObsWorld.set_layer ⟨L, an, some old, [old], [old]⟩ new).layers = L ∧
      (ObsWorld.set_layer ⟨L, an, some old, [old], [old]⟩ new).array_layer = new ∧
      (ObsWorld.set_layer ⟨L, an, some old, [old], [old]⟩ new).name_subs =
        new.toList ∧
      (ObsWorld.set_layer ⟨L, an, some old, [old], [old]⟩ new).visible_subs =
        new.toList := by
  unfold ObsWorld.set_layer ObsWorld.layer_name_of
  dsimp only
  simp only [List.erase_cons_head]
  cases new with
  | none =>
      rw [if_neg (fun h => Option.noConfusion h)]
      exact ⟨rfl, rfl, rfl, rfl⟩
  | some j =>
      by_cases hjo : (some j : Option Nat) = some old
      · rw [if_pos hjo]
        exact ⟨rfl, rfl, rfl, rfl⟩
      · rw [if_neg hjo]
        dsimp only
        cases hLj : L.get? j with
        | none => exact ⟨rfl, rfl, rfl, rfl⟩
        | some lj => exact ⟨rfl, rfl, rfl, rfl⟩

/-- Toggling the visibility of a layer the array is not subscribed to and not
bound to changes none of the array's observable state and emits nothing. -/
theorem set_layer_visible_unobserved (w : ObsWorld) (old : Nat) (b : Bool)
    (hv : old ∉ w.visible_subs) (hj : ∀ j, w.array_layer = some j → j ≠ old) :
    ∃ wv, w.set_layer_visible old b = some (wv, []) ∧
      wv.array_name = w.array_name ∧ wv.array_layer = w.array_layer ∧
      wv.array_loaded = w.array_loaded ∧ wv.array_visible = w.array_visible := by
  unfold ObsWorld.set_layer_visible
  cases hL : w.layers.get? old with
  | none => exact ⟨w, rfl, rfl, rfl, rfl, rfl⟩
  | some l =>
      by_cases hvb : l.visible = b
      · simp only [if_pos hvb]
        exact ⟨w, rfl, rfl, rfl, rfl, rfl⟩
      · simp only [if_neg hvb]
        rw [if_neg hv]
        refine ⟨_, rfl, rfl, rfl, rfl, ?_⟩
        unfold ObsWorld.array_visible
        dsimp only
        cases hal : w.array_layer with
        | none => rfl
        | some j =>
            dsimp only
            rw [List.get?_set_ne _ _ (Ne.symm (hj j hal))]

/-- Renaming a layer the array is not subscribed to and not bound to changes
none of the array's observable state and emits nothing. -/
theorem set_layer_name_unobserved (w : ObsWorld) (old : Nat) (x : String)
    (hn : old ∉ w.name_subs) (hj : ∀ j, w.array_layer = some j → j ≠ old) :
    ∃ wn, w.set_layer_name old x = some (wn, []) ∧
      wn.array_name = w.array_name ∧ wn.array_layer = w.array_layer ∧
      wn.array_loaded = w.array_loaded ∧ wn.array_visible = w.array_visible := by
  unfold ObsWorld.set_layer_name
  cases hL : w.layers.get? old with
  | none => exact ⟨w, rfl, rfl, rfl, rfl, rfl⟩
  | some l =>
      by_cases hlx : l.name = x
      · simp only [if_pos hlx]
        exact ⟨w, rfl, rfl, rfl, rfl, rfl⟩
      · simp only [if_neg hlx]
        rw [if_neg hn]
        refine ⟨_, rfl, rfl, rfl, rfl, ?_⟩
        unfold ObsWorld.array_visible
        dsimp only
        cases hal : w.array_layer with
        | none => rfl
        | some j =>
            dsimp only
            rw [List.get?_set_ne _ _ (Ne.symm (hj j hal))]

/-- C7: replacing the layer binding of an array bound (and subscribed) to
layer `old` with a different binding unsubscribes the array's name and
visibility observers from `old`, so that any subsequent visibility toggle or
rename of the old layer leaves the array's `name`, `loaded` and `visible`
state unchanged and emits no event on the array. -/
theorem claim_C7_rebind_unsubscribes (w : ObsWorld) (old : Nat)
    (new : Option Nat) (hb : w.array_layer = some old) (hinv : w.subs_invariant)
    (hne : new ≠ some old) :
    old ∉ (w.set_layer new).name_subs ∧
      old ∉ (w.set_layer new).visible_subs ∧
      (∀ b, ∃ wv, (w.set_layer new).set_layer_visible old b = some (wv, []) ∧
        wv.array_name = (w.set_layer new).array_name ∧
        wv.array_layer = (w.set_layer new).array_layer ∧
        wv.array_loaded = (w.set_layer new).array_loaded ∧
        wv.array_visible = (w.set_layer new).array_visible) ∧
      (∀ x, ∃ wn, (w.set_layer new).set_layer_name old x = some (wn, []) ∧
        wn.array_name = (w.set_layer new).array_name ∧
        wn.array_layer = (w.set_layer new).array_layer ∧
        wn.array_loaded = (w.set_layer new).array_loaded ∧
        wn.array_visible = (w.set_layer new).array_visible) := by
  obtain ⟨h1, h2⟩ := hinv
  obtain ⟨L, an, al, ns, vs⟩ := w
  dsimp only at hb h1 h2
  subst hb
  dsimp only [Option.toList] at h1 h2
  subst h1 h2
  obtain ⟨hL, hal, hns, hvs⟩ := set_layer_shape L an old new
  have hjold : ∀ j,
      (ObsWorld.set_layer ⟨L, an, some old, [old], [old]⟩ new).array_layer = some j →
        j ≠ old := by
    intro j hj hcon
    rw [hal] at hj
    exact hne (hcon ▸ hj)
  have hold_n : old ∉ (ObsWorld.set_layer ⟨L, an, some old, [old], [old]⟩ new).name_subs := by
    rw [hns]
    cases new with
    | none => simp
    | some j =>
        simp only [Option.toList, List.mem_singleton]
        intro hoj
        exact hne (by rw [hoj])
  have hold_v : old ∉ (ObsWorld.set_layer ⟨L, an, some old, [old], [old]⟩ new).visible_subs := by
    rw [hvs]
    cases new with
    | none => simp
    | some j =>
        simp only [Option.toList, List.mem_singleton]
        intro hoj
        exact hne (by rw [hoj])
  exact ⟨hold_n, hold_v,
    fun b => set_layer_visible_unobserved _ old b hold_v hjold,
    fun x => set_layer_name_unobserved _ old x hold_n hjold⟩

/-- C7, witness: the fixture world rebound from layer 0 to layer 1; toggling
layer 0's visibility or renaming it afterwards is a silent no-op for the
array. -/
theorem claim_C7_rebind_unsubscribes_witness :
    0 ∉ (c7World.set_layer (some 1)).name_subs ∧
      0 ∉ (c7World.set_layer (some 1)).visible_subs ∧
      (∃ wv, (c7World.set_layer (some 1)).set_layer_visible 0 true = some (wv, []) ∧
        wv.array_name = (c7World.set_layer (some 1)).array_name ∧
        wv.array_layer = (c7World.set_layer (some 1)).array_layer ∧
        wv.array_loaded = (c7World.set_layer (some 1)).array_loaded ∧
        wv.array_visible = (c7World.set_layer (some 1)).array_visible) ∧
      (∃ wn, (c7World.set_layer (some 1)).set_layer_name 0 "z" = some (wn, []) ∧
        wn.array_name = (c7World.set_layer (some 1)).array_name ∧
        wn.array_layer = (c7World.set_layer (some 1)).array_layer ∧
        wn.array_loaded = (c7World.set_layer (some 1)).array_loaded ∧
        wn.array_visible = (c7World.set_layer (some 1)).array_visible) := by
  have h := claim_C7_rebind_unsubscribes c7World 0 (some 1) rfl ⟨rfl, rfl⟩
    (by decide)
  exact ⟨h.1, h.2.1, h.2.2.1 true, h.2.2.2 "z"⟩

end NapariHierarchical

namespace NapariBioimage

/-- C10: `napari_get_reader` returns `None` on any list argument whose length
is not 1, for every controller predicate (the controller is never consulted);
a singleton list behaves exactly as its sole element; on a scalar path it
returns the reader function iff `controller.can_read_image(path)` holds. -/
theorem claim_C10_reader_dispatch (can_read_image : String → Bool) :
    (∀ ps : List String, ps.length ≠ 1 →
        napari_get_reader can_read_image (.listOf ps) = none) ∧
      (∀ p : String,
        napari_get_reader can_read_image (.listOf [p]) =
          napari_get_reader can_read_image (.single p)) ∧
      (∀ p : String, can_read_image p = true →
        napari_get_reader can_read_image (.single p) = some .readerFunction) ∧
      (∀ p : String, can_read_image p = false →
        napari_get_reader can_read_image (.single p) = none) := by
  refine ⟨fun ps hps => ?_, fun p => ?_, fun p hp => ?_, fun p hp => ?_⟩
  · simp [napari_get_reader, hps]
  · simp [napari_get_reader]
  · simp [napari_get_reader, hp]
  · simp [napari_get_reader, hp]

/-- C10, witness: concrete dispatches — an empty list and a two-element list
are rejected regardless of the controller, a singleton list matches its
element, and a scalar path follows the controller's answer. -/
theorem claim_C10_reader_dispatch_witness :
    napari_get_reader (fun _ => true) (.listOf []) = none ∧
      napari_get_reader (fun _ => true) (.listOf ["a", "b"]) = none ∧
      napari_get_reader (fun p => p == "a") (.listOf ["a"]) =
        napari_get_reader (fun p => p == "a") (.single "a") ∧
      napari_get_reader (fun p => p == "a") (.single "a") = some .readerFunction ∧
      napari_get_reader (fun p => p == "a") (.single "b") = none := by
  refine ⟨(claim_C10_reader_dispatch _).1 [] (by decide),
    (claim_C10_reader_dispatch _).1 ["a", "b"] (by decide),
    (claim_C10_reader_dispatch _).2.1 "a",
    (claim_C10_reader_dispatch _).2.2.1 "a" (by decide),
    (claim_C10_reader_dispatch _).2.2.2 "b" (by decide)⟩

end NapariBioimage

